import Mathlib

/-!
# Verification of the Yandex Metrika API client (`src/client.ts`)

Shallow embedding of the request-construction and retry core of the
`YandexMetrikaClient` class, together with proofs about its behaviour.

Conventions used throughout:

* JavaScript strings are Lean `String`s; character-level reasoning is done on
  `String.data : List Char`.
* A JavaScript `throw new Error(msg)` is modelled as `Except.error` carrying
  the error data; a normal return is `Except.ok`.
* Optional parameters (`dateFrom?: string`) are `Option String`; JavaScript
  truthiness of an optional string (`if (dateFrom) ...`) is `truthy`, which is
  false for both `undefined` and the empty string.
* The HTTP layer is abstracted as a function `Nat → AttemptOutcome` giving the
  outcome the network would produce for each attempt number.
-/

set_option maxRecDepth 8192

deriving instance DecidableEq for Except

namespace YandexMetrika

/-! ## Transport core (client.ts lines 24-70) -/

/-- `ClientConfig` after the constructor applied defaults (client.ts 15-22).
Durations are in milliseconds, as in the source. -/
structure ClientConfig where
  timeout : Nat
  retries : Nat
  retryDelay : Nat
deriving DecidableEq

/-- The defaulted configuration `{timeout: 30000, retries: 3, retryDelay: 1000}`. -/
def defaultConfig : ClientConfig := ⟨30000, 3, 1000⟩

/-- A thrown JavaScript `Error`, as inspected by `isRetryableError`:
only its `name` and `message` fields matter. -/
structure JsError where
  name : String
  message : String
deriving DecidableEq

/-- What a single HTTP attempt (one `fetch` call) can observe:
a timeout (the `AbortController` fires, `fetch` rejects with an `AbortError`),
a response with a status code and body text, or a low-level network error. -/
inductive AttemptOutcome where
  | timeout
  | status (code : Nat) (body : String)
  | netError (name message : String)

/-- Result of a logical call through `makeRequest`. -/
inductive ReqResult where
  | success (body : String)
  | failure (e : JsError)
deriving DecidableEq

/-- `needle` occurs as a contiguous run somewhere in `hay`. -/
def containsSubstrChars (needle : List Char) : List Char → Bool
  | [] => needle.isEmpty
  | c :: rest => needle.isPrefixOf (c :: rest) || containsSubstrChars needle rest

/-- JavaScript `hay.includes(needle)`. -/
def containsSubstr (needle hay : String) : Bool :=
  containsSubstrChars needle.data hay.data

/-- `isRetryableError` (client.ts 59-66): an `AbortError`, or any error whose
`message` contains `"500"`, `"502"` or `"503"` as a substring. The source's
`error.message &&` truthiness guard is redundant here because `includes` on an
empty message is `false`. -/
def isRetryableError (e : JsError) : Bool :=
  e.name == "AbortError" ||
  containsSubstr "500" e.message ||
  containsSubstr "502" e.message ||
  containsSubstr "503" e.message

/-- The message of the error thrown for a non-ok response (client.ts 44-46):
`` `Yandex Metrika error ${response.status}: ${errorText}` ``. -/
def httpErrorMessage (code : Nat) (body : String) : String :=
  "Yandex Metrika error " ++ Nat.repr code ++ ": " ++ body

/-- One iteration of the `try` block of `makeRequest` (client.ts 25-49):
a timeout surfaces as an `AbortError`; a response with `response.ok` false
(status outside 200-299) throws `httpErrorMessage`; an ok response resolves
with the (opaque) body. -/
def runAttempt : AttemptOutcome → Except JsError String
  | .timeout => .error ⟨"AbortError", "This operation was aborted"⟩
  | .netError n m => .error ⟨n, m⟩
  | .status code body =>
    if 200 ≤ code ∧ code ≤ 299 then .ok body
    else .error ⟨"Error", httpErrorMessage code body⟩

/-- `makeRequest` (client.ts 24-57). `resp n` is the outcome the network
produces for attempt number `n` (the source numbers attempts from 1).
Returns the final result together with the list of back-off delays awaited
between attempts, in order; the number of attempts made is the length of that
list plus one. On a caught error the source retries iff
`attempt < this.config.retries && this.isRetryableError(error)`,
waiting `this.config.retryDelay * attempt` before recursing with
`attempt + 1`. -/
def makeRequest (cfg : ClientConfig) (resp : Nat → AttemptOutcome) (attempt : Nat) :
    ReqResult × List Nat :=
  match runAttempt (resp attempt) with
  | .ok body => (.success body, [])
  | .error e =>
    if h : attempt < cfg.retries then
      if isRetryableError e then
        let r := makeRequest cfg resp (attempt + 1)
        (r.1, cfg.retryDelay * attempt :: r.2)
      else (.failure e, [])
    else (.failure e, [])
termination_by cfg.retries - attempt
decreasing_by omega

/-! ## Date validation (client.ts 104-112) -/

/-- Numeric value of a decimal digit character. -/
def digitVal (c : Char) : Nat := c.toNat - 48

/-- The regex test `/^\d{4}-\d{2}-\d{2}$/.test(s)` combined with field
extraction: `some (year, month, day)` iff the string is exactly ten
characters of shape `DDDD-DD-DD` (`\d` is the ASCII digit class). -/
def parseIsoDate (s : String) : Option (Nat × Nat × Nat) :=
  match s.data with
  | [y1, y2, y3, y4, h1, m1, m2, h2, d1, d2] =>
    if y1.isDigit && y2.isDigit && y3.isDigit && y4.isDigit &&
       h1 == '-' && m1.isDigit && m2.isDigit && h2 == '-' &&
       d1.isDigit && d2.isDigit then
      some (((digitVal y1 * 10 + digitVal y2) * 10 + digitVal y3) * 10 + digitVal y4,
            digitVal m1 * 10 + digitVal m2,
            digitVal d1 * 10 + digitVal d2)
    else none
  | _ => none

/-- Gregorian leap-year rule. -/
def isLeapYear (y : Nat) : Bool := y % 4 == 0 && (y % 100 != 0 || y % 400 == 0)

/-- Length of a month in the proleptic Gregorian calendar. -/
def daysInMonth (y m : Nat) : Nat :=
  if m = 2 then (if isLeapYear y then 29 else 28)
  else if m = 4 ∨ m = 6 ∨ m = 9 ∨ m = 11 then 30
  else 31

/-- Models the check `!isNaN(new Date(s).getTime())` for a string already
matching `^\d{4}-\d{2}-\d{2}$`: the engine parses such a string with the
ECMAScript date-time string format, which produces an Invalid Date unless the
month is 01-12 and the day is within the month's length for that year
(e.g. `new Date("2024-02-30")` is an Invalid Date). -/
def jsDateParses (y m d : Nat) : Bool :=
  1 ≤ m && m ≤ 12 && 1 ≤ d && d ≤ daysInMonth y m

/-- `isValidDate` (client.ts 104-112): regex shape check, then validity of the
constructed `Date`. -/
def isValidDate (dateString : String) : Bool :=
  match parseIsoDate dateString with
  | none => false
  | some (y, m, d) => jsDateParses y m d

/-! ## URL construction primitives -/

/-- JavaScript truthiness of an optional string parameter:
`undefined` and `""` are falsy. -/
def truthy : Option String → Bool
  | none => false
  | some s => !s.isEmpty

/-- A single-quote character, written via its code point. -/
def sq : String := ⟨[Char.ofNat 39]⟩

def API_BASE : String := "https://api-metrika.yandex.net"

def API_MANAGMENT : String := "management/v1"

def API_REPORTS : String := "stat/v1/data"

/-- `` `${API_BASE}/${API_REPORTS}` ``, the prefix shared by every report URL. -/
def reportsBase : String := API_BASE ++ "/" ++ API_REPORTS

/-- Render one `name=value` query fragment. -/
def renderParam (p : String × String) : String := p.1 ++ "=" ++ p.2

/-- The `a=1&b=2&...` query string the source assembles by template-literal
concatenation. -/
def renderQuery : List (String × String) → String
  | [] => ""
  | [p] => renderParam p
  | p :: q :: rest => renderParam p ++ "&" ++ renderQuery (q :: rest)

/-- `` `${base}?${query}` ``. -/
def mkUrl (base : String) (ps : List (String × String)) : String :=
  base ++ "?" ++ renderQuery ps

/-- The guarded append `if (v) url += `&name=${v}`` used for optional string
parameters: contributes the parameter only when the value is truthy. -/
def optParam (name : String) (v : Option String) : List (String × String) :=
  match v with
  | none => []
  | some s => if s.isEmpty then [] else [(name, s)]

/-- JavaScript `list.join(",")`. -/
def joinComma : List String → String
  | [] => ""
  | [s] => s
  | s :: t :: rest => s ++ "," ++ joinComma (t :: rest)

/-! ## `encodeURIComponent` -/

/-- Uppercase hexadecimal digit. -/
def hexDigit (n : Nat) : Char := "0123456789ABCDEF".data.getD n '0'

/-- `%XY` escape of one byte. -/
def percentByte (b : Nat) : List Char := ['%', hexDigit (b / 16 % 16), hexDigit (b % 16)]

/-- UTF-8 bytes of a code point. -/
def utf8Bytes (n : Nat) : List Nat :=
  if n < 0x80 then [n]
  else if n < 0x800 then [0xC0 + n / 64, 0x80 + n % 64]
  else if n < 0x10000 then [0xE0 + n / 4096, 0x80 + n / 64 % 64, 0x80 + n % 64]
  else [0xF0 + n / 262144, 0x80 + n / 4096 % 64, 0x80 + n / 64 % 64, 0x80 + n % 64]

/-- The characters `encodeURIComponent` leaves unescaped:
`A-Z a-z 0-9 - _ . ! ~ * ' ( )`. -/
def isUnescapedURIChar (c : Char) : Bool :=
  c.isAlpha || c.isDigit ||
  ['-', '_', '.', '!', '~', '*', Char.ofNat 39, '(', ')'].contains c

/-- `encodeURIComponent`: percent-encodes the UTF-8 bytes of every character
outside the unescaped set. -/
def encodeURIComponent (s : String) : String :=
  ⟨s.data.flatMap fun c =>
    if isUnescapedURIChar c then [c] else (utf8Bytes c.toNat).flatMap percentByte⟩

/-! ## Parsing query parameters back out of a built URL

Used to state properties of the produced URL strings: the components of a URL
between `&` separators, each component's key (the part before the first `=`)
and value (the part after it). -/

/-- Split a character list at every `&`. -/
def splitOnAmp : List Char → List (List Char)
  | [] => [[]]
  | c :: rest =>
    if c = '&' then [] :: splitOnAmp rest
    else
      match splitOnAmp rest with
      | [] => [[c]]
      | h :: t => (c :: h) :: t

/-- The key of one `key=value` component. -/
def componentKey (comp : List Char) : List Char := comp.takeWhile (fun c => c != '=')

/-- The value of one `key=value` component. -/
def componentValue (comp : List Char) : List Char :=
  (comp.dropWhile (fun c => c != '=')).drop 1

/-- The keys of all `&`-separated components of a URL. -/
def urlParamKeys (u : String) : List (List Char) :=
  (splitOnAmp u.data).map componentKey

/-- The value of the first `&`-separated component of `u` whose key is `key`. -/
def queryParamValue (u key : String) : Option (List Char) :=
  ((splitOnAmp u.data).filter (fun comp => componentKey comp == key.data)).head?.map
    componentValue

/-! ## Report operations (URL builders)

Each operation throws (`.error`) on validation failure and otherwise returns
(`.ok`) the URL it would hand to `makeRequest`. The guard
`if (!counterId || typeof counterId !== 'string')` reduces, for a string
argument, to an emptiness test. -/

/-- Error message shared by every operation's counter-id guard. -/
def counterIdError : String := "Counter ID must be a non-empty string"

/-- `getVisits` (client.ts 81-102). The dates are validated, but the built URL
omits them: line 100 of the source is the commented-out variant that would
have appended `date1`/`date2`. -/
def getVisits (counterId : String) (dateFrom dateTo : Option String) :
    Except String String :=
  if counterId.isEmpty then .error counterIdError
  else if truthy dateFrom && !isValidDate (dateFrom.getD "") then
    .error "dateFrom must be in YYYY-MM-DD format"
  else if truthy dateTo && !isValidDate (dateTo.getD "") then
    .error "dateTo must be in YYYY-MM-DD format"
  else .ok (mkUrl reportsBase [("ids", counterId), ("metrics", "ym:s:visits")])

/-- `getContentAnalyticsSources` (client.ts 143-153): no date validation;
supplied dates are appended as `date1`/`date2`. -/
def getContentAnalyticsSources (counterId : String) (dateFrom dateTo : Option String) :
    Except String String :=
  if counterId.isEmpty then .error counterIdError
  else .ok (mkUrl reportsBase
    ([("preset", "publishers_sources"), ("id", counterId)] ++
      optParam "date1" dateFrom ++ optParam "date2" dateTo))

/-- The literal filter expression of `getTrafficSourcesTypes` (client.ts 196):
`ym:s:lastTrafficSource=.('organic','direct','referral')`. -/
def trafficSourcesFilter : String :=
  "ym:s:lastTrafficSource=.(" ++ sq ++ "organic" ++ sq ++ "," ++ sq ++ "direct" ++ sq ++
    "," ++ sq ++ "referral" ++ sq ++ ")"

/-- `getTrafficSourcesTypes` (client.ts 191-198). The filter expression is
interpolated into the URL verbatim, with no `encodeURIComponent`. -/
def getTrafficSourcesTypes (counterId : String) : Except String String :=
  if counterId.isEmpty then .error counterIdError
  else .ok (mkUrl reportsBase
    [("dimensions", "ym:s:lastTrafficSource"), ("metrics", "ym:s:visits,ym:s:users"),
     ("filters", trafficSourcesFilter), ("id", counterId), ("lang", "ru")])

/-- The filter expression assembled by `getSearchEnginesData` (client.ts 205-211). -/
def searchEnginesFilter (excludeRobots newUsersOnly : Bool) : String :=
  let f := "ym:s:trafficSource==" ++ sq ++ "organic" ++ sq
  let f := if excludeRobots then f ++ " AND ym:s:isRobot==" ++ sq ++ "No" ++ sq else f
  if newUsersOnly then f ++ " AND ym:s:isNewUser==" ++ sq ++ "Yes" ++ sq else f

/-- `getSearchEnginesData` (client.ts 200-215): the whole filter expression is
passed through `encodeURIComponent`. -/
def getSearchEnginesData (counterId : String) (excludeRobots newUsersOnly : Bool) :
    Except String String :=
  if counterId.isEmpty then .error counterIdError
  else .ok (mkUrl reportsBase
    [("dimensions", "ym:s:searchEngine"), ("metrics", "ym:s:visits,ym:s:users"),
     ("filters", encodeURIComponent (searchEnginesFilter excludeRobots newUsersOnly)),
     ("id", counterId)])

/-- The filter expression of `getRegionalData` (client.ts 222-223):
each city single-quoted, comma-joined, wrapped in `ym:s:regionCityName=.(...)`. -/
def regionalFilter (cities : List String) : String :=
  "ym:s:regionCityName=.(" ++ joinComma (cities.map fun c => sq ++ c ++ sq) ++ ")"

/-- `getRegionalData` (client.ts 217-227): filter passed through
`encodeURIComponent`. The default city list of the source is supplied by the
caller. -/
def getRegionalData (counterId : String) (cities : List String) :
    Except String String :=
  if counterId.isEmpty then .error counterIdError
  else .ok (mkUrl reportsBase
    [("metrics", "ym:s:visits,ym:s:users"),
     ("filters", encodeURIComponent (regionalFilter cities)),
     ("id", counterId), ("lang", "ru")])

/-- The filter expression of `getPageDepthAnalysis` (client.ts 234). The
`minPages` number is modelled as an integer. -/
def pageDepthFilter (minPages : Int) : String := "ym:s:pageViews>" ++ Int.repr minPages

/-- `getPageDepthAnalysis` (client.ts 229-237): filter passed through
`encodeURIComponent`. -/
def getPageDepthAnalysis (counterId : String) (minPages : Int) :
    Except String String :=
  if counterId.isEmpty then .error counterIdError
  else .ok (mkUrl reportsBase
    [("metrics", "ym:s:visits"),
     ("filters", encodeURIComponent (pageDepthFilter minPages)),
     ("id", counterId)])

/-- The literal filter of `getOrganicSearchPerformance` (client.ts 290):
`ym:s:trafficSource=='organic'`. -/
def organicFilter : String := "ym:s:trafficSource==" ++ sq ++ "organic" ++ sq

/-- `getOrganicSearchPerformance` (client.ts 285-295). The filter expression is
interpolated verbatim, with no `encodeURIComponent`. -/
def getOrganicSearchPerformance (counterId : String) (dateFrom dateTo : Option String) :
    Except String String :=
  if counterId.isEmpty then .error counterIdError
  else .ok (mkUrl reportsBase
    ([("dimensions", "ym:s:searchEngine,ym:s:searchPhrase"),
      ("metrics", "ym:s:visits,ym:s:users,ym:s:pageviews"),
      ("filters", organicFilter), ("id", counterId)] ++
     optParam "date1" dateFrom ++ optParam "date2" dateTo))

/-- The literal filter of `getContentAnalyticsArticles` (client.ts 347):
`(ym:s:publisherArticle!n)`. -/
def articlesFilter : String := "(ym:s:publisherArticle!n)"

/-- `getContentAnalyticsArticles` (client.ts 342-352). The filter expression is
interpolated verbatim, with no `encodeURIComponent`. -/
def getContentAnalyticsArticles (counterId : String) (dateFrom dateTo : Option String) :
    Except String String :=
  if counterId.isEmpty then .error counterIdError
  else .ok (mkUrl reportsBase
    ([("ids", counterId), ("dimensions", "ym:s:publisherArticle"),
      ("metrics", "ym:s:publisherviews"), ("filters", articlesFilter),
      ("sort", "-ym:s:publisherviews")] ++
     optParam "date1" dateFrom ++ optParam "date2" dateTo))

/-! ## The attribution rewriter (client.ts 359-405) -/

/-- `attributionPrefixMap` (client.ts 366-377), in insertion order; for every
entry the dimension-name prefix equals the attribution parameter value. -/
def attributionPrefixMap : List (String × String) :=
  [("automatic", "automatic"),
   ("last", "last"),
   ("first", "first"),
   ("lastsign", "lastsign"),
   ("last_yandex_direct_click", "last_yandex_direct_click"),
   ("cross_device_first", "cross_device_first"),
   ("cross_device_last", "cross_device_last"),
   ("cross_device_last_significant", "cross_device_last_significant"),
   ("cross_device_last_yandex_direct_click", "cross_device_last_yandex_direct_click")]

/-- `Object.keys(attributionPrefixMap)` in insertion order. -/
def attributionKeys : List String := attributionPrefixMap.map Prod.fst

/-- The message of the error thrown for an unrecognized attribution
(client.ts 380-382). -/
def invalidAttributionMessage (attribution : String) : String :=
  "Invalid attribution: " ++ attribution ++ ". Must be one of: " ++
    String.intercalate ", " attributionKeys

/-- The alternatives of the `dimensionPattern` regex (client.ts 390), in the
order they appear in the alternation. -/
def dimensionPatternAlternatives : List String :=
  ["automatic", "last", "first", "lastsign",
   "last_yandex_direct_click", "lastYandexDirectClick",
   "cross_device_first", "crossDeviceFirst",
   "cross_device_last", "crossDeviceLast",
   "cross_device_last_significant", "crossDeviceLastSignificant",
   "cross_device_last_yandex_direct_click", "crossDeviceLastYandexDirectClick"]

/-- Matching of `^ym:s:(alt₁|...|altₙ)(.+)$` against the part of the dimension
after `ym:s:`: a JavaScript regex tries the alternatives left to right, and an
alternative succeeds when it is a prefix of `rest` with a nonempty remainder
(required by `(.+)`). Returns the alternative the regex captures. -/
def firstAttributionAlt (rest : List Char) : Option String :=
  dimensionPatternAlternatives.find? fun alt =>
    alt.data.isPrefixOf rest && decide (alt.data.length < rest.length)

/-- The characters after the literal `ym:s:` scope prefix, when the dimension
starts with it. -/
def stripYmS? (d : String) : Option (List Char) :=
  match d.data with
  | 'y' :: 'm' :: ':' :: 's' :: ':' :: rest => some rest
  | _ => none

/-- `buildDimensionNameWithAttribution` (client.ts 359-405): validate the
attribution, then if the dimension matches `dimensionPattern` replace the
captured alternative with the model's prefix; otherwise, if the dimension
matches `^ym:s:(.+)$` (nonempty remainder), insert the prefix before the base
name; otherwise return the dimension unchanged. -/
def buildDimensionNameWithAttribution (dimension attribution : String) :
    Except String String :=
  match attributionPrefixMap.find? (fun p => p.1 == attribution) with
  | none => .error (invalidAttributionMessage attribution)
  | some pair =>
    match stripYmS? dimension with
    | some rest =>
      match firstAttributionAlt rest with
      | some alt =>
        .ok ⟨'y' :: 'm' :: ':' :: 's' :: ':' :: (pair.2.data ++ rest.drop alt.data.length)⟩
      | none =>
        if rest.isEmpty then .ok dimension
        else .ok ⟨'y' :: 'm' :: ':' :: 's' :: ':' :: (pair.2.data ++ rest)⟩
    | none => .ok dimension

/-! ## `getDataByTime` (client.ts 407-456) -/

/-- `list.map f` for a fallible `f`, stopping at the first thrown error, as
`dimensions.map(dim => this.buildDimensionNameWithAttribution(dim, attribution))`
does. -/
def mapExcept (f : α → Except ε β) : List α → Except ε (List β)
  | [] => .ok []
  | a :: as =>
    match f a with
    | .error e => .error e
    | .ok b =>
      match mapExcept f as with
      | .error e => .error e
      | .ok bs => .ok (b :: bs)

/-- `getDataByTime` (client.ts 407-456). `metrics` is `Option` so that an
absent (`undefined`) argument, rejected by the `!metrics` guard, is
representable; `group` is one of the five grouping literals; `topKeys` is the
`top_keys` number. The attribution rewrite runs only when `attribution` is
truthy and a nonempty dimension list was supplied, and the attribution value
is afterwards used solely inside the rewritten dimension names. -/
def getDataByTime (counterId : String) (metrics : Option (List String))
    (dateFrom dateTo : Option String) (dimensions : Option (List String))
    (group : String) (topKeys : Nat) (timezone : Option String)
    (attribution : Option String) : Except String String :=
  if counterId.isEmpty then .error counterIdError
  else if (metrics.getD []).isEmpty then .error "At least one metric is required"
  else if 20 < (metrics.getD []).length then
    .error "Maximum 20 metrics allowed per request"
  else if 10 < (dimensions.getD []).length then
    .error "Maximum 10 dimensions allowed per request"
  else
    match
      (if truthy attribution && !(dimensions.getD []).isEmpty then
        (mapExcept (fun dim =>
          buildDimensionNameWithAttribution dim (attribution.getD "")) (dimensions.getD [])).map
          some
      else .ok dimensions : Except String (Option (List String))) with
    | .error e => .error e
    | .ok processedDimensions =>
      .ok (mkUrl (reportsBase ++ "/bytime")
        ([("ids", counterId), ("metrics", joinComma (metrics.getD [])),
          ("group", group), ("top_keys", Nat.repr topKeys)] ++
         optParam "date1" dateFrom ++ optParam "date2" dateTo ++
         (match processedDimensions with
          | none => []
          | some ds => if ds.isEmpty then [] else [("dimensions", joinComma ds)]) ++
         (match timezone with
          | none => []
          | some tz => if tz.isEmpty then [] else [("timezone", encodeURIComponent tz)])))

/-! ## Lemmas about the transport core -/

lemma containsSubstrChars_nil_needle (r : List Char) : containsSubstrChars [] r = true := by
  cases r <;> simp [containsSubstrChars, List.isPrefixOf]

lemma containsSubstrChars_append_left {needle l : List Char} (r : List Char)
    (h : containsSubstrChars needle l = true) :
    containsSubstrChars needle (l ++ r) = true := by
  induction l with
  | nil =>
    simp [containsSubstrChars] at h
    subst h
    exact containsSubstrChars_nil_needle r
  | cons c l ih =>
    simp only [containsSubstrChars, Bool.or_eq_true] at h ⊢
    rcases h with h | h
    · left
      rw [List.isPrefixOf_iff_prefix] at h ⊢
      exact h.trans (List.prefix_append _ r)
    · right
      exact ih h

lemma containsSubstr_append_left (needle s t : String)
    (h : containsSubstr needle s = true) : containsSubstr needle (s ++ t) = true := by
  unfold containsSubstr at h ⊢
  rw [String.data_append]
  exact containsSubstrChars_append_left _ h

/-- Any error thrown for a 503 response is classified retryable, whatever the
body: its message starts with `"Yandex Metrika error 503: "`. -/
lemma isRetryable_503 (b : String) :
    isRetryableError ⟨"Error", httpErrorMessage 503 b⟩ = true := by
  have h : containsSubstr "503" (httpErrorMessage 503 b) = true := by
    unfold httpErrorMessage
    exact containsSubstr_append_left _ _ b (by decide)
  unfold isRetryableError
  simp [h]

lemma makeRequest_ok (cfg : ClientConfig) {resp : Nat → AttemptOutcome} {attempt : Nat}
    {body : String} (h : runAttempt (resp attempt) = .ok body) :
    makeRequest cfg resp attempt = (.success body, []) := by
  conv_lhs => rw [makeRequest]
  rw [h]

lemma makeRequest_retry (cfg : ClientConfig) {resp : Nat → AttemptOutcome} {attempt : Nat}
    {e : JsError} (h : runAttempt (resp attempt) = .error e)
    (h2 : attempt < cfg.retries) (h3 : isRetryableError e = true) :
    makeRequest cfg resp attempt =
      ((makeRequest cfg resp (attempt + 1)).1,
        cfg.retryDelay * attempt :: (makeRequest cfg resp (attempt + 1)).2) := by
  conv_lhs => rw [makeRequest]
  rw [h]
  dsimp only
  rw [dif_pos h2, if_pos h3]

lemma makeRequest_fail (cfg : ClientConfig) {resp : Nat → AttemptOutcome} {attempt : Nat}
    {e : JsError} (h : runAttempt (resp attempt) = .error e)
    (h2 : ¬(attempt < cfg.retries) ∨ isRetryableError e = false) :
    makeRequest cfg resp attempt = (.failure e, []) := by
  conv_lhs => rw [makeRequest]
  rw [h]
  dsimp only
  rcases h2 with h2 | h2
  · rw [dif_neg h2]
  · rcases Nat.lt_or_ge attempt cfg.retries with hlt | hge
    · rw [dif_pos hlt, if_neg (by simp [h2])]
    · rw [dif_neg (Nat.not_lt.mpr hge)]

/-! ## C1 -/

/-- C1, counterexample: with the default configuration, a 404 response whose
body text happens to contain the substring `"503"` is classified retryable
(the classifier inspects the whole composed message, body included), so the
call makes three attempts — with two back-off waits — rather than the single
attempt the claim requires for a non-retryable status, regardless of body. -/
theorem makeRequest_404_body_503_retries :
    makeRequest defaultConfig (fun _ => .status 404 "upstream returned 503") 1 =
      (.failure ⟨"Error", httpErrorMessage 404 "upstream returned 503"⟩,
        [1000 * 1, 1000 * 2]) := by
  have hrun : ∀ n : Nat,
      runAttempt ((fun _ => AttemptOutcome.status 404 "upstream returned 503") n) =
        .error ⟨"Error", httpErrorMessage 404 "upstream returned 503"⟩ := by
    intro n
    simp only [runAttempt]
    rw [if_neg (by decide)]
  have hretry : isRetryableError ⟨"Error", httpErrorMessage 404 "upstream returned 503"⟩ = true := by
    decide
  rw [makeRequest_retry defaultConfig (hrun 1) (by decide) hretry,
      makeRequest_retry defaultConfig (hrun 2) (by decide) hretry,
      makeRequest_fail defaultConfig (hrun 3) (Or.inl (by decide))]
  rfl

/-- C1 (amended): when the first attempt observes a non-success status and the
composed error message `Yandex Metrika error <status>: <body>` contains none
of the substrings `"500"`, `"502"`, `"503"`, the call makes exactly one
attempt and fails immediately with an error carrying the status code and the
response body text. (The source classifies retryability by substring search
over that message, so the body's content does participate in the decision;
statuses 500, 502, 503 always retry because the status digits themselves
occur in the message.) -/
theorem makeRequest_non_retryable_single_attempt
    (cfg : ClientConfig) (resp : Nat → AttemptOutcome) (code : Nat) (body : String)
    (h1 : resp 1 = .status code body) (hcode : ¬(200 ≤ code ∧ code ≤ 299))
    (h500 : containsSubstr "500" (httpErrorMessage code body) = false)
    (h502 : containsSubstr "502" (httpErrorMessage code body) = false)
    (h503 : containsSubstr "503" (httpErrorMessage code body) = false) :
    makeRequest cfg resp 1 = (.failure ⟨"Error", httpErrorMessage code body⟩, []) := by
  have hrun : runAttempt (resp 1) = .error ⟨"Error", httpErrorMessage code body⟩ := by
    rw [h1]
    simp only [runAttempt]
    rw [if_neg hcode]
  refine makeRequest_fail cfg hrun (Or.inr ?_)
  unfold isRetryableError
  have hname : (("Error" : String) == "AbortError") = false := by decide
  simp [hname, h500, h502, h503]

/-- Witness for C1's amended theorem at a concrete 404. -/
theorem makeRequest_non_retryable_single_attempt_witness :
    makeRequest defaultConfig (fun _ => .status 404 "Not Found") 1 =
      (.failure ⟨"Error", httpErrorMessage 404 "Not Found"⟩, []) :=
  makeRequest_non_retryable_single_attempt defaultConfig _ 404 "Not Found" rfl
    (by decide) (by decide) (by decide) (by decide)

/-! ## C2 -/

/-- C2: with `retries = 3`, a call observing responses `[503, 503, 200]` makes
exactly three attempts (two back-off waits), waits `retryDelay * 1` then
`retryDelay * 2` between attempts, and ends in success with the last body; a
call observing `[503, 503, 503]` makes exactly three attempts with the same
waits and surfaces the last attempt's error — carrying the last response's
body — unchanged. -/
theorem makeRequest_linear_backoff_and_exhaustion
    (t d : Nat) (resp respX : Nat → AttemptOutcome) (b1 b2 b3 c1 c2 c3 : String)
    (h1 : resp 1 = .status 503 b1) (h2 : resp 2 = .status 503 b2)
    (h3 : resp 3 = .status 200 b3)
    (h1x : respX 1 = .status 503 c1) (h2x : respX 2 = .status 503 c2)
    (h3x : respX 3 = .status 503 c3) :
    makeRequest ⟨t, 3, d⟩ resp 1 = (.success b3, [d * 1, d * 2]) ∧
    makeRequest ⟨t, 3, d⟩ respX 1 =
      (.failure ⟨"Error", httpErrorMessage 503 c3⟩, [d * 1, d * 2]) := by
  have hrun503 : ∀ b : String,
      runAttempt (.status 503 b) = .error ⟨"Error", httpErrorMessage 503 b⟩ := by
    intro b
    simp only [runAttempt]
    rw [if_neg (by decide)]
  have l13 : (1 : Nat) < 3 := by decide
  have l23 : (2 : Nat) < 3 := by decide
  have n33 : ¬((3 : Nat) < 3) := by decide
  constructor
  · have r1 : runAttempt (resp 1) = .error ⟨"Error", httpErrorMessage 503 b1⟩ := by
      rw [h1]; exact hrun503 b1
    have r2 : runAttempt (resp 2) = .error ⟨"Error", httpErrorMessage 503 b2⟩ := by
      rw [h2]; exact hrun503 b2
    have r3 : runAttempt (resp 3) = .ok b3 := by
      rw [h3]; simp only [runAttempt]; rw [if_pos (by decide)]
    rw [makeRequest_retry ⟨t, 3, d⟩ r1 l13 (isRetryable_503 b1),
        makeRequest_retry ⟨t, 3, d⟩ r2 l23 (isRetryable_503 b2),
        makeRequest_ok ⟨t, 3, d⟩ r3]
  · have r1 : runAttempt (respX 1) = .error ⟨"Error", httpErrorMessage 503 c1⟩ := by
      rw [h1x]; exact hrun503 c1
    have r2 : runAttempt (respX 2) = .error ⟨"Error", httpErrorMessage 503 c2⟩ := by
      rw [h2x]; exact hrun503 c2
    have r3 : runAttempt (respX 3) = .error ⟨"Error", httpErrorMessage 503 c3⟩ := by
      rw [h3x]; exact hrun503 c3
    rw [makeRequest_retry ⟨t, 3, d⟩ r1 l13 (isRetryable_503 c1),
        makeRequest_retry ⟨t, 3, d⟩ r2 l23 (isRetryable_503 c2),
        makeRequest_fail ⟨t, 3, d⟩ r3 (Or.inl n33)]

/-- Witness for C2 at concrete response sequences. -/
theorem makeRequest_linear_backoff_and_exhaustion_witness :
    makeRequest ⟨30000, 3, 1000⟩
        (fun n => if n = 3 then .status 200 "ok" else .status 503 "busy") 1 =
      (.success "ok", [1000 * 1, 1000 * 2]) ∧
    makeRequest ⟨30000, 3, 1000⟩ (fun _ => .status 503 "busy") 1 =
      (.failure ⟨"Error", httpErrorMessage 503 "busy"⟩, [1000 * 1, 1000 * 2]) :=
  makeRequest_linear_backoff_and_exhaustion 30000 1000 _ _ "busy" "busy" "ok"
    "busy" "busy" "busy" rfl rfl rfl rfl rfl rfl

/-! ## C3 -/

/-- C3, counterexample: `getContentAnalyticsSources` performs no date
validation at all — a string that is not a calendar date (`"2024-13-99"`)
passes straight through into the built URL's `date1` parameter with no
`InvalidParameter` failure, so date validation does not happen for every
operation's date parameters. -/
theorem contentAnalyticsSources_accepts_invalid_date :
    isValidDate "2024-13-99" = false ∧
    getContentAnalyticsSources "1" (some "2024-13-99") none =
      .ok "https://api-metrika.yandex.net/stat/v1/data?preset=publishers_sources&id=1&date1=2024-13-99" :=
  ⟨by decide, by decide⟩

/-- C3 (amended): for `getVisits` — the one operation that validates its date
parameters — a supplied `dateFrom`/`dateTo` that fails `isValidDate` (pattern
mismatch, or pattern match without being a real calendar date, e.g.
`"2024-02-30"`) makes the call fail synchronously, before any URL is built or
request made; the other operations accept their date parameters unvalidated. -/
theorem getVisits_rejects_invalid_dates (c : String) (d1 d2 : Option String)
    (hc : c.isEmpty = false) :
    (truthy d1 = true → isValidDate (d1.getD "") = false →
      getVisits c d1 d2 = .error "dateFrom must be in YYYY-MM-DD format") ∧
    ((truthy d1 = true → isValidDate (d1.getD "") = true) →
      truthy d2 = true → isValidDate (d2.getD "") = false →
      getVisits c d1 d2 = .error "dateTo must be in YYYY-MM-DD format") ∧
    isValidDate "2024-02-30" = false ∧ isValidDate "2024-1-01" = false := by
  refine ⟨?_, ?_, by decide, by decide⟩
  · intro ht hinv
    unfold getVisits
    rw [if_neg (by simp [hc]), if_pos (by simp [ht, hinv])]
  · intro hv1 ht2 hinv2
    have hcond : (truthy d1 && !isValidDate (d1.getD "")) = false := by
      cases ht : truthy d1 with
      | false => simp
      | true => simp [hv1 ht]
    unfold getVisits
    rw [if_neg (by simp [hc]), if_neg (by simp [hcond]), if_pos (by simp [ht2, hinv2])]

/-- Witness for C3's amended theorem at `dateFrom = "2024-02-30"`. -/
theorem getVisits_rejects_invalid_dates_witness :
    getVisits "1" (some "2024-02-30") none = .error "dateFrom must be in YYYY-MM-DD format" :=
  (getVisits_rejects_invalid_dates "1" (some "2024-02-30") none (by decide)).1
    (by decide) (by decide)

/-! ## C8 -/

/-- C8: `getVisits` validates the supplied dates but the URL it builds omits
them — there is no `date1`/`date2` query parameter even though both dates were
supplied and valid (the source's line 100 keeps the intended URL, with
`&date1=${dateFrom}&date2=${dateTo}`, commented out). -/
theorem getVisits_builds_url_without_dates :
    getVisits "12345" (some "2024-01-01") (some "2024-01-31") =
      .ok "https://api-metrika.yandex.net/stat/v1/data?ids=12345&metrics=ym:s:visits" ∧
    queryParamValue "https://api-metrika.yandex.net/stat/v1/data?ids=12345&metrics=ym:s:visits"
      "date1" = none ∧
    queryParamValue "https://api-metrika.yandex.net/stat/v1/data?ids=12345&metrics=ym:s:visits"
      "date2" = none :=
  ⟨by decide, by decide, by decide⟩

/-! ## C10 -/

/-- Shape predicate for the claim: `d` begins with `ym:s:` followed by at
least one character. -/
def isYmSDimension (d : String) : Bool :=
  match stripYmS? d with
  | some rest => !rest.isEmpty
  | none => false

/-- C10: for any dimension string that is not `ym:s:` followed by at least one
character, and any recognized attribution model, the rewriter returns the
dimension unchanged and raises no error. -/
theorem buildDimension_other_scope_unchanged (d a : String)
    (ha : a ∈ attributionKeys) (hd : isYmSDimension d = false) :
    buildDimensionNameWithAttribution d a = .ok d := by
  have hfind : ∃ pair, attributionPrefixMap.find? (fun p => p.1 == a) = some pair := by
    rw [← Option.isSome_iff_exists, List.find?_isSome]
    obtain ⟨p, hp, hp1⟩ := List.mem_map.mp ha
    exact ⟨p, hp, by simp [hp1]⟩
  obtain ⟨pair, hfind⟩ := hfind
  unfold buildDimensionNameWithAttribution
  rw [hfind]
  unfold isYmSDimension at hd
  dsimp only
  cases hstrip : stripYmS? d with
  | none => rfl
  | some rest =>
    rw [hstrip] at hd
    have hrest : rest = [] := by simpa using hd
    have hnone : firstAttributionAlt rest = none := by
      apply List.find?_eq_none.mpr
      intro alt _
      subst hrest
      simp
    dsimp only
    rw [hnone, if_pos (by simp [hrest])]

/-- Witness for C10 at a `ym:u:`-scoped dimension. -/
theorem buildDimension_other_scope_unchanged_witness :
    buildDimensionNameWithAttribution "ym:u:age" "automatic" = .ok "ym:u:age" :=
  buildDimension_other_scope_unchanged "ym:u:age" "automatic" (by decide) (by decide)

/-! ## C4 -/

/-- C4, counterexample: `"ym:s:lastsignUTMCampaign"` carries the recognized
attribution prefix `lastsign`, but because the regex alternation tries `last`
first, only `last` is stripped: the result keeps the leftover `sign`, instead
of the `"ym:s:firstUTMCampaign"` a whole-prefix replacement would give. -/
theorem buildDimension_partial_prefix_strip :
    buildDimensionNameWithAttribution "ym:s:lastsignUTMCampaign" "first" =
      .ok "ym:s:firstsignUTMCampaign" ∧
    ("ym:s:firstsignUTMCampaign" : String) ≠ "ym:s:firstUTMCampaign" :=
  ⟨by decide, by decide⟩

/-- C4 (amended): for a dimension `ym:s:<name>` (nonempty `<name>`) and a
recognized attribution model, the rewriter produces `ym:s:<prefix><rest>`
where: if no alternative of the regex alternation is a proper prefix of
`<name>`, the model's prefix is inserted before the whole base name; otherwise
the *first* matching alternative, in the alternation's fixed order, is
stripped and replaced — which strips only part of the stored prefix when an
earlier alternative is a prefix of a later one (`last` shadows `lastsign`,
`last_yandex_direct_click`; `cross_device_last` shadows its extensions). The
two quoted examples hold as stated. -/
theorem buildDimension_attribution_rewrite (a : String) (pair : String × String)
    (rest : List Char)
    (ha : attributionPrefixMap.find? (fun p => p.1 == a) = some pair)
    (hrest : rest ≠ []) :
    ((∀ alt ∈ dimensionPatternAlternatives,
        ¬(alt.data.isPrefixOf rest = true ∧ alt.data.length < rest.length)) →
      buildDimensionNameWithAttribution ⟨'y' :: 'm' :: ':' :: 's' :: ':' :: rest⟩ a =
        .ok ⟨'y' :: 'm' :: ':' :: 's' :: ':' :: (pair.2.data ++ rest)⟩) ∧
    (∀ pre alt post, dimensionPatternAlternatives = pre ++ alt :: post →
      alt.data.isPrefixOf rest = true → alt.data.length < rest.length →
      (∀ alt2 ∈ pre, ¬(alt2.data.isPrefixOf rest = true ∧ alt2.data.length < rest.length)) →
      buildDimensionNameWithAttribution ⟨'y' :: 'm' :: ':' :: 's' :: ':' :: rest⟩ a =
        .ok ⟨'y' :: 'm' :: ':' :: 's' :: ':' ::
          (pair.2.data ++ rest.drop alt.data.length)⟩) ∧
    buildDimensionNameWithAttribution "ym:s:UTMCampaign" "last" = .ok "ym:s:lastUTMCampaign" ∧
    buildDimensionNameWithAttribution "ym:s:automaticUTMCampaign" "first" =
      .ok "ym:s:firstUTMCampaign" := by
  refine ⟨?_, ?_, by decide, by decide⟩
  · intro hnomatch
    have hnone : firstAttributionAlt rest = none := by
      apply List.find?_eq_none.mpr
      intro alt hmem
      simpa [Bool.and_eq_true, decide_eq_true_eq] using hnomatch alt hmem
    have hstrip : stripYmS? ⟨'y' :: 'm' :: ':' :: 's' :: ':' :: rest⟩ = some rest := rfl
    unfold buildDimensionNameWithAttribution
    rw [ha]
    dsimp only
    rw [hstrip]
    dsimp only
    rw [hnone, if_neg (by simp [hrest])]
  · intro pre alt post hsplit hpref hlen hpre
    have hsome : firstAttributionAlt rest = some alt := by
      unfold firstAttributionAlt
      rw [hsplit, List.find?_append]
      have hprenone : List.find?
          (fun alt => alt.data.isPrefixOf rest && decide (alt.data.length < rest.length))
          pre = none := by
        apply List.find?_eq_none.mpr
        intro alt2 hmem
        simpa [Bool.and_eq_true, decide_eq_true_eq] using hpre alt2 hmem
      rw [hprenone, Option.none_or, List.find?_cons_of_pos]
      simp only [Bool.and_eq_true, decide_eq_true_eq]
      exact ⟨hpref, hlen⟩
    have hstrip : stripYmS? ⟨'y' :: 'm' :: ':' :: 's' :: ':' :: rest⟩ = some rest := rfl
    unfold buildDimensionNameWithAttribution
    rw [ha]
    dsimp only
    rw [hstrip]
    dsimp only
    rw [hsome]

/-- Witness for C4's amended theorem: inserting `last` before the unprefixed
base name `UTMCampaign`. -/
theorem buildDimension_attribution_rewrite_witness :
    buildDimensionNameWithAttribution ⟨'y' :: 'm' :: ':' :: 's' :: ':' :: "UTMCampaign".data⟩
        "last" =
      .ok ⟨'y' :: 'm' :: ':' :: 's' :: ':' :: (("last" : String).data ++ "UTMCampaign".data)⟩ :=
  (buildDimension_attribution_rewrite "last" ("last", "last") "UTMCampaign".data
    (by decide) (by decide)).1 (by decide)

/-! ## C6 -/

/-- C6, counterexample: `getDataByTime` with the unrecognized attribution
`"bogus"` but no dimensions succeeds — the attribution validation lives inside
the dimension rewrite, which only runs when a nonempty dimension list is
supplied, so the call proceeds to the network with the attribution silently
ignored instead of failing with `InvalidParameter`. -/
theorem getDataByTime_bogus_attribution_without_dimensions_succeeds :
    ("bogus" ∉ attributionKeys) ∧
    getDataByTime "1" (some ["ym:s:visits"]) none none none "day" 7 none (some "bogus") =
      .ok "https://api-metrika.yandex.net/stat/v1/data/bytime?ids=1&metrics=ym:s:visits&group=day&top_keys=7" :=
  ⟨by decide, by decide⟩

/-- C6 (amended): a `getDataByTime` call with an attribution value outside the
nine recognized models fails synchronously — before any URL is built or
request made — with the error listing all nine valid values, provided at least
one dimension is supplied (and the earlier counter/metrics/dimensions guards
pass); with no dimensions the invalid attribution is ignored. -/
theorem getDataByTime_invalid_attribution_rejected (c : String) (ms : List String)
    (d1 d2 tz : Option String) (ds : List String) (g : String) (tk : Nat) (a : String)
    (hc : c.isEmpty = false) (hms1 : ms ≠ []) (hms2 : ms.length ≤ 20)
    (hds1 : ds ≠ []) (hds2 : ds.length ≤ 10)
    (ha : ∀ k ∈ attributionKeys, k ≠ a) (ha2 : a.isEmpty = false) :
    getDataByTime c (some ms) d1 d2 (some ds) g tk tz (some a) =
      .error (invalidAttributionMessage a) ∧
    String.intercalate ", " attributionKeys =
      "automatic, last, first, lastsign, last_yandex_direct_click, cross_device_first, cross_device_last, cross_device_last_significant, cross_device_last_yandex_direct_click" := by
  refine ⟨?_, by decide⟩
  have hfind : attributionPrefixMap.find? (fun p => p.1 == a) = none := by
    apply List.find?_eq_none.mpr
    intro p hp
    have : p.1 ≠ a := ha p.1 (List.mem_map_of_mem Prod.fst hp)
    simp [this]
  have hbuild : ∀ dim, buildDimensionNameWithAttribution dim a =
      .error (invalidAttributionMessage a) := by
    intro dim
    unfold buildDimensionNameWithAttribution
    rw [hfind]
  obtain ⟨d, ds', rfl⟩ : ∃ d ds', ds = d :: ds' := by
    cases ds with
    | nil => exact absurd rfl hds1
    | cons d ds' => exact ⟨d, ds', rfl⟩
  unfold getDataByTime
  rw [if_neg (by simp [hc]), if_neg (by simpa using hms1), if_neg (by simpa using hms2),
      if_neg (by simpa using hds2)]
  have hcond : (truthy (some a) && !((some (d :: ds')).getD []).isEmpty) = true := by
    simp [truthy, ha2]
  rw [if_pos hcond]
  have hmap : mapExcept (fun dim => buildDimensionNameWithAttribution dim ((some a).getD ""))
      ((some (d :: ds')).getD []) = .error (invalidAttributionMessage a) := by
    show mapExcept _ (d :: ds') = _
    unfold mapExcept
    rw [show (some a).getD "" = a from rfl, hbuild d]
  rw [hmap]
  rfl

/-- Witness for C6's amended theorem at attribution `"bogus"` with one
dimension supplied. -/
theorem getDataByTime_invalid_attribution_rejected_witness :
    getDataByTime "1" (some ["ym:s:visits"]) none none (some ["ym:s:UTMCampaign"]) "day" 7
        none (some "bogus") =
      .error (invalidAttributionMessage "bogus") :=
  (getDataByTime_invalid_attribution_rejected "1" ["ym:s:visits"] none none none
    ["ym:s:UTMCampaign"] "day" 7 "bogus" (by decide) (by decide) (by decide) (by decide)
    (by decide) (by decide) (by decide)).1

/-! ## C9 -/

/-- C9: `getDataByTime` rejects an absent, empty, or 21-element metrics list
and an 11-element dimensions list with the corresponding error before any URL
is built, while a 20-element metrics list and a 10-element dimensions list are
accepted. -/
theorem getDataByTime_list_bounds (c : String) (d1 d2 tz : Option String)
    (g : String) (tk : Nat) (hc : c.isEmpty = false) :
    getDataByTime c none d1 d2 none g tk tz none =
      .error "At least one metric is required" ∧
    getDataByTime c (some []) d1 d2 none g tk tz none =
      .error "At least one metric is required" ∧
    (∀ ms : List String, ms.length = 21 →
      getDataByTime c (some ms) d1 d2 none g tk tz none =
        .error "Maximum 20 metrics allowed per request") ∧
    (∀ ms : List String, ms.length = 20 →
      ∃ u, getDataByTime c (some ms) d1 d2 none g tk tz none = .ok u) ∧
    (∀ ms ds : List String, ms ≠ [] → ms.length ≤ 20 → ds.length = 11 →
      getDataByTime c (some ms) d1 d2 (some ds) g tk tz none =
        .error "Maximum 10 dimensions allowed per request") ∧
    (∀ ms ds : List String, ms ≠ [] → ms.length ≤ 20 → ds.length = 10 →
      ∃ u, getDataByTime c (some ms) d1 d2 (some ds) g tk tz none = .ok u) := by
  refine ⟨?_, ?_, ?_, ?_, ?_, ?_⟩
  · unfold getDataByTime
    rw [if_neg (by simp [hc]), if_pos (by simp)]
  · unfold getDataByTime
    rw [if_neg (by simp [hc]), if_pos (by simp)]
  · intro ms hlen
    unfold getDataByTime
    rw [if_neg (by simp [hc]), if_neg (by simp [← List.length_pos_iff_ne_nil]; omega),
        if_pos (by simp [hlen])]
  · intro ms hlen
    unfold getDataByTime
    rw [if_neg (by simp [hc]), if_neg (by simp [← List.length_pos_iff_ne_nil]; omega),
        if_neg (by simp [hlen]), if_neg (by simp)]
    rw [if_neg (by simp [truthy])]
    exact ⟨_, rfl⟩
  · intro ms ds hms hms2 hlen
    unfold getDataByTime
    rw [if_neg (by simp [hc]), if_neg (by simpa using hms), if_neg (by simpa using hms2),
        if_pos (by simp [hlen])]
  · intro ms ds hms hms2 hlen
    unfold getDataByTime
    rw [if_neg (by simp [hc]), if_neg (by simpa using hms), if_neg (by simpa using hms2),
        if_neg (by simp [hlen])]
    rw [if_neg (by simp [truthy])]
    exact ⟨_, rfl⟩

/-- Witness for C9 at concrete arguments: a 20-element metrics list is
accepted, a 21-element one is rejected. -/
theorem getDataByTime_list_bounds_witness :
    getDataByTime "1" none none none none "day" 7 none none =
      .error "At least one metric is required" :=
  (getDataByTime_list_bounds "1" none none none "day" 7 (by decide)).1

/-! ## Lemmas about query strings -/

lemma splitOnAmp_ne_nil (l : List Char) : splitOnAmp l ≠ [] := by
  cases l with
  | nil => simp [splitOnAmp]
  | cons c rest =>
    simp only [splitOnAmp]
    split
    · simp
    · split <;> simp

lemma splitOnAmp_append_noAmp {l : List Char} (r : List Char) (hl : '&' ∉ l)
    {h₀ : List Char} {t : List (List Char)} (hr : splitOnAmp r = h₀ :: t) :
    splitOnAmp (l ++ r) = (l ++ h₀) :: t := by
  induction l with
  | nil => simpa using hr
  | cons c l ih =>
    have hc : c ≠ '&' := fun hce => hl (hce ▸ List.mem_cons_self c l)
    have hl' : '&' ∉ l := fun hm => hl (List.mem_cons_of_mem c hm)
    simp only [List.cons_append, splitOnAmp, List.append_eq]
    rw [if_neg hc, ih hl']

lemma splitOnAmp_sep {l : List Char} (r : List Char) (hl : '&' ∉ l) :
    splitOnAmp (l ++ '&' :: r) = l :: splitOnAmp r := by
  obtain ⟨h₀, t, hr⟩ : ∃ h₀ t, splitOnAmp r = h₀ :: t := by
    cases hs : splitOnAmp r with
    | nil => exact absurd hs (splitOnAmp_ne_nil r)
    | cons h₀ t => exact ⟨h₀, t, rfl⟩
  have hamp : splitOnAmp ('&' :: r) = [] :: splitOnAmp r := by
    simp [splitOnAmp]
  rw [splitOnAmp_append_noAmp ('&' :: r) hl (by rw [hamp, hr]), List.append_nil, hr]

lemma renderParam_data (p : String × String) :
    (renderParam p).data = p.1.data ++ ('=' :: p.2.data) := by
  have h : ("=" : String).data = ['='] := rfl
  unfold renderParam
  rw [String.data_append, String.data_append, h, List.append_assoc]
  rfl

lemma renderParam_noAmp {p : String × String} (h1 : '&' ∉ p.1.data) (h2 : '&' ∉ p.2.data) :
    '&' ∉ (renderParam p).data := by
  rw [renderParam_data]
  intro hm
  rcases List.mem_append.mp hm with hm | hm
  · exact h1 hm
  · rcases List.mem_cons.mp hm with hm | hm
    · exact absurd hm (by decide)
    · exact h2 hm

lemma splitOnAmp_renderQuery (ps : List (String × String)) (hne : ps ≠ [])
    (hall : ∀ p ∈ ps, '&' ∉ p.1.data ∧ '&' ∉ p.2.data) :
    splitOnAmp (renderQuery ps).data = ps.map fun p => p.1.data ++ ('=' :: p.2.data) := by
  induction ps with
  | nil => exact absurd rfl hne
  | cons p ps ih =>
    cases ps with
    | nil =>
      have hp := hall p (List.mem_cons_self p [])
      have hnp : '&' ∉ (renderParam p).data := renderParam_noAmp hp.1 hp.2
      have h := splitOnAmp_append_noAmp (l := (renderParam p).data) []
        hnp (show splitOnAmp ([] : List Char) = [] :: [] from rfl)
      simpa [renderQuery, renderParam_data] using h
    | cons q rest =>
      have hp := hall p (List.mem_cons_self p (q :: rest))
      have hnp : '&' ∉ (renderParam p).data := renderParam_noAmp hp.1 hp.2
      have htail := ih (by simp)
        (fun x hx => hall x (List.mem_cons_of_mem p hx))
      show splitOnAmp (renderParam p ++ "&" ++ renderQuery (q :: rest)).data = _
      rw [String.data_append, String.data_append,
        show ("&" : String).data = ['&'] from rfl, List.append_assoc]
      rw [show (['&'] ++ (renderQuery (q :: rest)).data : List Char) =
        '&' :: (renderQuery (q :: rest)).data from rfl]
      rw [splitOnAmp_sep _ hnp, htail, renderParam_data]
      rfl

lemma splitOnAmp_mkUrl (base : String) (p₀ : String × String)
    (ps : List (String × String)) (hbase : '&' ∉ base.data)
    (hall : ∀ p ∈ p₀ :: ps, '&' ∉ p.1.data ∧ '&' ∉ p.2.data) :
    splitOnAmp (mkUrl base (p₀ :: ps)).data =
      (base.data ++ ('?' :: (p₀.1.data ++ ('=' :: p₀.2.data)))) ::
        ps.map (fun p => p.1.data ++ ('=' :: p.2.data)) := by
  have hq := splitOnAmp_renderQuery (p₀ :: ps) (by simp) hall
  rw [List.map_cons] at hq
  unfold mkUrl
  rw [String.data_append, String.data_append,
    show ("?" : String).data = ['?'] from rfl, List.append_assoc]
  have hl : '&' ∉ base.data ++ ('?' :: []) := by
    intro hm
    rcases List.mem_append.mp hm with hm | hm
    · exact hbase hm
    · rcases List.mem_cons.mp hm with hm | hm
      · exact absurd hm (by decide)
      · simp at hm
  have h := splitOnAmp_append_noAmp (l := base.data ++ ('?' :: []))
    ((renderQuery (p₀ :: ps)).data) hl hq
  rw [show (base.data ++ ['?'] ++ (renderQuery (p₀ :: ps)).data : List Char) =
    base.data ++ (['?'] ++ (renderQuery (p₀ :: ps)).data) from List.append_assoc _ _ _] at h
  rw [h]
  congr 1
  simp [List.append_assoc]

lemma componentKey_append (k v : List Char) (hk : '=' ∉ k) :
    componentKey (k ++ ('=' :: v)) = k := by
  unfold componentKey
  induction k with
  | nil => simp [List.takeWhile_cons]
  | cons c k ih =>
    have hc : c ≠ '=' := fun hce => hk (hce ▸ List.mem_cons_self c k)
    have hk' : '=' ∉ k := fun hm => hk (List.mem_cons_of_mem c hm)
    simp only [List.cons_append, List.takeWhile_cons]
    simp [hc, ih hk']

lemma componentValue_append (k v : List Char) (hk : '=' ∉ k) :
    componentValue (k ++ ('=' :: v)) = v := by
  unfold componentValue
  induction k with
  | nil => simp [List.dropWhile_cons]
  | cons c k ih =>
    have hc : c ≠ '=' := fun hce => hk (hce ▸ List.mem_cons_self c k)
    have hk' : '=' ∉ k := fun hm => hk (List.mem_cons_of_mem c hm)
    simp only [List.cons_append, List.dropWhile_cons]
    simp only [componentValue] at ih
    simp [hc, ih hk']

/-! ## Characters never produced where an `&` would be needed -/

lemma hexDigit_ne_amp (n : Nat) : hexDigit n ≠ '&' := by
  have hall : ∀ c ∈ ("0123456789ABCDEF" : String).data, c ≠ '&' := by decide
  unfold hexDigit
  rw [List.getD]
  rcases h : ("0123456789ABCDEF" : String).data.get? n with _ | c
  · decide
  · exact hall c (List.get?_mem h)

lemma percentByte_noAmp (b : Nat) : '&' ∉ percentByte b := by
  unfold percentByte
  intro hm
  rcases List.mem_cons.mp hm with hm | hm
  · exact absurd hm (by decide)
  · rcases List.mem_cons.mp hm with hm | hm
    · exact hexDigit_ne_amp _ hm.symm
    · rcases List.mem_cons.mp hm with hm | hm
      · exact hexDigit_ne_amp _ hm.symm
      · simp at hm

lemma encodeURIComponent_noAmp (s : String) : '&' ∉ (encodeURIComponent s).data := by
  unfold encodeURIComponent
  intro hm
  rcases List.mem_flatMap.mp hm with ⟨c, _, hc⟩
  by_cases h : isUnescapedURIChar c
  · rw [if_pos h] at hc
    obtain rfl : '&' = c := by simpa using hc
    exact absurd h (by decide)
  · rw [if_neg h] at hc
    rcases List.mem_flatMap.mp hc with ⟨b, _, hb⟩
    exact percentByte_noAmp b hb

lemma digitChar_ne_amp (n : Nat) : Nat.digitChar n ≠ '&' := by
  rcases Nat.lt_or_ge n 16 with h16 | h16
  · interval_cases n <;> decide
  · have hstar : Nat.digitChar n = '*' := by
      unfold Nat.digitChar
      repeat rw [if_neg (by omega)]
    rw [hstar]
    decide

lemma toDigitsCore_ne_amp (b : Nat) :
    ∀ (f n : Nat) (ds : List Char), (∀ c ∈ ds, c ≠ '&') →
      ∀ c ∈ Nat.toDigitsCore b f n ds, c ≠ '&' := by
  intro f
  induction f with
  | zero => intro n ds hds; simpa [Nat.toDigitsCore] using hds
  | succ f ih =>
    intro n ds hds
    unfold Nat.toDigitsCore
    dsimp only
    have hcons : ∀ c ∈ Nat.digitChar (n % b) :: ds, c ≠ '&' := by
      intro c hc
      rcases List.mem_cons.mp hc with hc | hc
      · exact hc ▸ digitChar_ne_amp (n % b)
      · exact hds c hc
    split
    · exact hcons
    · exact ih (n / b) _ hcons

lemma natRepr_noAmp (n : Nat) : '&' ∉ (Nat.repr n).data := by
  intro hm
  have hall : ∀ c ∈ Nat.toDigits 10 n, c ≠ '&' :=
    toDigitsCore_ne_amp 10 (n + 1) n [] (by simp)
  exact hall '&' (by simpa [Nat.repr, Nat.toDigits, List.asString] using hm) rfl

lemma joinComma_noAmp (l : List String) (h : ∀ s ∈ l, '&' ∉ s.data) :
    '&' ∉ (joinComma l).data := by
  induction l with
  | nil => simp [joinComma]
  | cons s rest ih =>
    cases rest with
    | nil => simpa [joinComma] using h s (List.mem_cons_self s [])
    | cons t rest' =>
      show '&' ∉ (s ++ "," ++ joinComma (t :: rest')).data
      rw [String.data_append, String.data_append]
      intro hm
      rcases List.mem_append.mp hm with hm | hm
      · rcases List.mem_append.mp hm with hm | hm
        · exact h s (List.mem_cons_self s (t :: rest')) hm
        · have hcm : '&' = ',' := by simpa using hm
          exact absurd hcm (by decide)
      · exact ih (fun x hx => h x (List.mem_cons_of_mem s hx)) hm

lemma optParam_mem {name : String} {v : Option String} {p : String × String}
    (hp : p ∈ optParam name v) : p.1 = name ∧ ∃ s, v = some s ∧ p.2 = s := by
  unfold optParam at hp
  cases v with
  | none => simp at hp
  | some s =>
    cases hs : s.isEmpty with
    | true => simp [hs] at hp
    | false =>
      simp [hs] at hp
      subst hp
      exact ⟨rfl, s, rfl, rfl⟩

lemma string_eq_of_data_eq {a b : String} (h : a.data = b.data) : a = b := by
  cases a
  cases b
  exact congrArg String.mk h

/-- The keys of the components of a rendered URL: the first parameter's key is
fused with the base and `?`, the remaining parameters keep their own keys. -/
lemma urlParamKeys_mkUrl (base : String) (p₀ : String × String)
    (ps : List (String × String)) (hbase : '&' ∉ base.data)
    (hall : ∀ p ∈ p₀ :: ps, '&' ∉ p.1.data ∧ '&' ∉ p.2.data)
    (hkeys : ∀ p ∈ ps, '=' ∉ p.1.data) :
    urlParamKeys (mkUrl base (p₀ :: ps)) =
      componentKey (base.data ++ ('?' :: (p₀.1.data ++ ('=' :: p₀.2.data)))) ::
        ps.map (fun p => p.1.data) := by
  unfold urlParamKeys
  rw [splitOnAmp_mkUrl base p₀ ps hbase hall, List.map_cons, List.map_map]
  congr 1
  apply List.map_congr_left
  intro p hp
  exact componentKey_append p.1.data p.2.data (hkeys p hp)

/-- Extraction of one parameter's value from a rendered URL: the first
parameter after the base, zero or more parameters with keys different from
`k`, then `(k, v)`, then anything. -/
lemma queryParamValue_mkUrl (base k v : String) (p₀ : String × String)
    (pre post : List (String × String))
    (hbase : '&' ∉ base.data) (hbaseEq : '=' ∉ base.data) (h₀k : '=' ∉ p₀.1.data)
    (hall : ∀ p ∈ p₀ :: (pre ++ (k, v) :: post), '&' ∉ p.1.data ∧ '&' ∉ p.2.data)
    (hkEq : '=' ∉ k.data)
    (hne₀ : base.data ++ ('?' :: p₀.1.data) ≠ k.data)
    (hpre : ∀ p ∈ pre, '=' ∉ p.1.data ∧ p.1 ≠ k) :
    queryParamValue (mkUrl base (p₀ :: (pre ++ (k, v) :: post))) k = some v.data := by
  have hkey₀ : componentKey (base.data ++ ('?' :: (p₀.1.data ++ ('=' :: p₀.2.data)))) =
      base.data ++ ('?' :: p₀.1.data) := by
    have hnk : '=' ∉ base.data ++ ('?' :: p₀.1.data) := by
      intro hm
      rcases List.mem_append.mp hm with hm | hm
      · exact hbaseEq hm
      · rcases List.mem_cons.mp hm with hm | hm
        · exact absurd hm (by decide)
        · exact h₀k hm
    have h := componentKey_append (base.data ++ ('?' :: p₀.1.data)) p₀.2.data hnk
    rw [← h]
    congr 1
    simp [List.append_assoc]
  unfold queryParamValue
  rw [splitOnAmp_mkUrl base p₀ _ hbase hall, List.map_append, List.map_cons]
  rw [List.filter_cons_of_neg, List.filter_append]
  · have hprefilter : List.filter
        (fun comp => componentKey comp == k.data)
        (pre.map fun p => p.1.data ++ ('=' :: p.2.data)) = [] := by
      apply List.filter_eq_nil_iff.mpr
      intro comp hcomp
      rcases List.mem_map.mp hcomp with ⟨p, hp, rfl⟩
      rw [componentKey_append p.1.data p.2.data (hpre p hp).1]
      simp only [beq_eq_false_iff_ne, ne_eq, Bool.not_eq_true]
      intro hdata
      exact (hpre p hp).2 (string_eq_of_data_eq hdata)
    rw [hprefilter, List.filter_cons_of_pos]
    · simp [componentValue_append k.data v.data hkEq]
    · rw [componentKey_append k.data v.data hkEq]
      simp
  · rw [hkey₀]
    simp only [beq_eq_false_iff_ne, ne_eq, Bool.not_eq_true]
    simpa using hne₀

/-- `stripYmS?` succeeds exactly on dimensions starting with `ym:s:`. -/
lemma stripYmS?_eq_some {d : String} {rest : List Char} (h : stripYmS? d = some rest) :
    d.data = 'y' :: 'm' :: ':' :: 's' :: ':' :: rest := by
  unfold stripYmS? at h
  split at h
  · next heq =>
    injection h with h'
    rw [heq, h']
  · exact Option.noConfusion h

/-- A successful rewrite introduces no `&`: the output is the input, or the
scope prefix plus a map prefix plus a suffix of the input. -/
lemma buildDimension_noAmp {dim a out : String}
    (h : buildDimensionNameWithAttribution dim a = .ok out) (hdim : '&' ∉ dim.data) :
    '&' ∉ out.data := by
  have hmap : ∀ p ∈ attributionPrefixMap, '&' ∉ p.2.data := by decide
  unfold buildDimensionNameWithAttribution at h
  rcases hf : attributionPrefixMap.find? (fun p => p.1 == a) with _ | pair
  · rw [hf] at h
    exact Except.noConfusion h
  · rw [hf] at h
    have hpair : '&' ∉ pair.2.data :=
      hmap pair (List.mem_of_find?_eq_some hf)
    rcases hstrip : stripYmS? dim with _ | rest
    · rw [hstrip] at h
      injection h with h'
      exact h' ▸ hdim
    · rw [hstrip] at h
      have hrest : '&' ∉ rest := by
        intro hm
        exact hdim (by rw [stripYmS?_eq_some hstrip]; simp [hm])
      dsimp only at h
      rcases halt : firstAttributionAlt rest with _ | alt
      · rw [halt] at h
        by_cases he : rest.isEmpty
        · rw [if_pos he] at h
          injection h with h'
          exact h' ▸ hdim
        · rw [if_neg he] at h
          injection h with h'
          rw [← h']
          intro hm
          rcases List.mem_cons.mp hm with hm | hm
          · exact absurd hm (by decide)
          · rcases List.mem_cons.mp hm with hm | hm
            · exact absurd hm (by decide)
            · rcases List.mem_cons.mp hm with hm | hm
              · exact absurd hm (by decide)
              · rcases List.mem_cons.mp hm with hm | hm
                · exact absurd hm (by decide)
                · rcases List.mem_cons.mp hm with hm | hm
                  · exact absurd hm (by decide)
                  · rcases List.mem_append.mp hm with hm | hm
                    · exact hpair hm
                    · exact hrest hm
      · rw [halt] at h
        injection h with h'
        rw [← h']
        intro hm
        rcases List.mem_cons.mp hm with hm | hm
        · exact absurd hm (by decide)
        · rcases List.mem_cons.mp hm with hm | hm
          · exact absurd hm (by decide)
          · rcases List.mem_cons.mp hm with hm | hm
            · exact absurd hm (by decide)
            · rcases List.mem_cons.mp hm with hm | hm
              · exact absurd hm (by decide)
              · rcases List.mem_cons.mp hm with hm | hm
                · exact absurd hm (by decide)
                · rcases List.mem_append.mp hm with hm | hm
                  · exact hpair hm
                  · exact hrest (List.mem_of_mem_drop hm)

/-- A property of the outputs of a successful `mapExcept`, derived from a
property of `f` on the inputs. -/
lemma mapExcept_ok_forall {α β ε : Type} {f : α → Except ε β} (P : β → Prop) :
    ∀ {l : List α} {l' : List β}, mapExcept f l = .ok l' →
      (∀ x ∈ l, ∀ y, f x = .ok y → P y) → ∀ y ∈ l', P y := by
  intro l
  induction l with
  | nil =>
    intro l' h _
    have : l' = [] := by
      unfold mapExcept at h
      injection h with h'
      exact h'.symm
    subst this
    simp
  | cons x xs ih =>
    intro l' h hf y hy
    unfold mapExcept at h
    rcases hfx : f x with _ | b
    · rw [hfx] at h
      exact Except.noConfusion h
    · rw [hfx] at h
      rcases hrec : mapExcept f xs with _ | bs
      · rw [hrec] at h
        exact Except.noConfusion h
      · rw [hrec] at h
        injection h with h'
        subst h'
        rcases List.mem_cons.mp hy with hy | hy
        · exact hy ▸ hf x (List.mem_cons_self x xs) b hfx
        · exact ih hrec (fun z hz => hf z (List.mem_cons_of_mem x hz)) y hy

/-- Absence of a parameter name from a rendered URL, given it differs from the
fused first component's key and from every later parameter's key. -/
lemma urlParamKeys_not_mem (base : String) (p₀ : String × String)
    (ps : List (String × String)) (target : List Char)
    (hbase : '&' ∉ base.data)
    (hall : ∀ p ∈ p₀ :: ps, '&' ∉ p.1.data ∧ '&' ∉ p.2.data)
    (hkeys : ∀ p ∈ ps, '=' ∉ p.1.data)
    (h₀ : componentKey (base.data ++ ('?' :: (p₀.1.data ++ ('=' :: p₀.2.data)))) ≠ target)
    (hps : ∀ p ∈ ps, p.1.data ≠ target) :
    target ∉ urlParamKeys (mkUrl base (p₀ :: ps)) := by
  rw [urlParamKeys_mkUrl base p₀ ps hbase hall hkeys]
  intro hm
  rcases List.mem_cons.mp hm with hm | hm
  · exact h₀ hm.symm
  · rcases List.mem_map.mp hm with ⟨p, hp, hpe⟩
    exact hps p hp hpe

/-! ## C5 -/

/-- C5: whenever `getDataByTime` succeeds in building a URL — for parameter
values that do not themselves smuggle in a `&` separator — the resulting URL
has no query parameter named `attribution`: the attribution value survives
only inside the rewritten dimension names. -/
theorem getDataByTime_no_attribution_param (counterId : String)
    (metrics : Option (List String)) (dateFrom dateTo : Option String)
    (dimensions : Option (List String)) (group : String) (topKeys : Nat)
    (timezone attribution : Option String)
    (hC : '&' ∉ counterId.data)
    (hM : ∀ ms ∈ metrics, ∀ m ∈ ms, '&' ∉ m.data)
    (hG : '&' ∉ group.data)
    (hD1 : ∀ s ∈ dateFrom, '&' ∉ s.data) (hD2 : ∀ s ∈ dateTo, '&' ∉ s.data)
    (hDim : ∀ ds ∈ dimensions, ∀ dm ∈ ds, '&' ∉ dm.data)
    (u : String)
    (h : getDataByTime counterId metrics dateFrom dateTo dimensions group topKeys
      timezone attribution = .ok u) :
    "attribution".data ∉ urlParamKeys u := by
  have hM' : ∀ m ∈ metrics.getD [], '&' ∉ m.data := by
    cases metrics with
    | none => simp
    | some ms => exact fun m hm => hM ms rfl m hm
  have hDim' : ∀ dm ∈ dimensions.getD [], '&' ∉ dm.data := by
    cases dimensions with
    | none => simp
    | some ds => exact fun dm hdm => hDim ds rfl dm hdm
  unfold getDataByTime at h
  split at h
  · exact Except.noConfusion h
  split at h
  · exact Except.noConfusion h
  split at h
  · exact Except.noConfusion h
  split at h
  · exact Except.noConfusion h
  split at h
  next e heq => exact Except.noConfusion h
  next pd heq =>
  injection h with hu
  subst hu
  have hpd : ∀ ds ∈ pd, ∀ dm ∈ ds, '&' ∉ dm.data := by
    by_cases hcond :
        (truthy attribution && !(dimensions.getD []).isEmpty) = true
    · rw [if_pos hcond] at heq
      rcases hmx : mapExcept (fun dim =>
          buildDimensionNameWithAttribution dim (attribution.getD ""))
          (dimensions.getD []) with e | ds'
      · rw [hmx] at heq
        exact Except.noConfusion heq
      · rw [hmx] at heq
        have h' : some ds' = pd := by
          simpa [Except.map] using heq
        intro ds hds dm hdm
        rw [← h'] at hds
        have hds' : ds' = ds := by simpa using hds
        subst hds'
        exact mapExcept_ok_forall (fun s => '&' ∉ s.data) hmx
          (fun x hx y hy => buildDimension_noAmp hy (hDim' x hx)) dm hdm
    · rw [if_neg hcond] at heq
      injection heq with h'
      intro ds hds
      rw [← h'] at hds
      cases dimensions with
      | none => exact absurd hds (by simp)
      | some ds0 =>
        have : ds0 = ds := by simpa using hds
        exact this ▸ hDim ds0 rfl
  simp only [List.cons_append, List.nil_append, List.append_assoc]
  apply urlParamKeys_not_mem
  · decide
  · intro p hp
    simp only [List.mem_cons, List.mem_append] at hp
    rcases hp with rfl | rfl | rfl | rfl | hp | hp | hp | hp
    · exact ⟨show '&' ∉ ("ids" : String).data by decide, hC⟩
    · exact ⟨show '&' ∉ ("metrics" : String).data by decide, joinComma_noAmp _ hM'⟩
    · exact ⟨show '&' ∉ ("group" : String).data by decide, hG⟩
    · exact ⟨show '&' ∉ ("top_keys" : String).data by decide, natRepr_noAmp topKeys⟩
    · obtain ⟨hk, s, hv, hs⟩ := optParam_mem hp
      exact ⟨by rw [hk]; decide, by rw [hs]; exact hD1 s (by rw [hv]; rfl)⟩
    · obtain ⟨hk, s, hv, hs⟩ := optParam_mem hp
      exact ⟨by rw [hk]; decide, by rw [hs]; exact hD2 s (by rw [hv]; rfl)⟩
    · rcases pd with _ | ds
      · simp at hp
      · rcases hds : ds.isEmpty with _ | _
        · have hp' : p = ("dimensions", joinComma ds) := by simpa [hds] using hp
          subst hp'
          exact ⟨show '&' ∉ ("dimensions" : String).data by decide,
            joinComma_noAmp ds (hpd ds rfl)⟩
        · simp [hds] at hp
    · rcases timezone with _ | tz
      · simp at hp
      · rcases htz : tz.isEmpty with _ | _
        · have hp' : p = ("timezone", encodeURIComponent tz) := by simpa [htz] using hp
          subst hp'
          exact ⟨show '&' ∉ ("timezone" : String).data by decide,
            encodeURIComponent_noAmp tz⟩
        · simp [htz] at hp
  · intro p hp
    simp only [List.mem_cons, List.mem_append] at hp
    rcases hp with rfl | rfl | rfl | hp | hp | hp | hp
    · exact show '=' ∉ ("metrics" : String).data by decide
    · exact show '=' ∉ ("group" : String).data by decide
    · exact show '=' ∉ ("top_keys" : String).data by decide
    · obtain ⟨hk, s, hv, hs⟩ := optParam_mem hp
      rw [hk]; decide
    · obtain ⟨hk, s, hv, hs⟩ := optParam_mem hp
      rw [hk]; decide
    · rcases pd with _ | ds
      · simp at hp
      · rcases hds : ds.isEmpty with _ | _
        · have hp' : p = ("dimensions", joinComma ds) := by simpa [hds] using hp
          subst hp'
          exact show '=' ∉ ("dimensions" : String).data by decide
        · simp [hds] at hp
    · rcases timezone with _ | tz
      · simp at hp
      · rcases htz : tz.isEmpty with _ | _
        · have hp' : p = ("timezone", encodeURIComponent tz) := by simpa [htz] using hp
          subst hp'
          exact show '=' ∉ ("timezone" : String).data by decide
        · simp [htz] at hp
  · have hkey0 := componentKey_append
      ((reportsBase ++ "/bytime").data ++ ('?' :: ("ids" : String).data))
      counterId.data (by decide)
    rw [show ((reportsBase ++ "/bytime").data ++
        ('?' :: (("ids" : String).data ++ ('=' :: counterId.data))) : List Char) =
      ((reportsBase ++ "/bytime").data ++ ('?' :: ("ids" : String).data)) ++
        ('=' :: counterId.data) by simp [List.append_assoc]]
    rw [hkey0]
    decide
  · intro p hp
    simp only [List.mem_cons, List.mem_append] at hp
    rcases hp with rfl | rfl | rfl | hp | hp | hp | hp
    · exact show ("metrics" : String).data ≠ ("attribution" : String).data by decide
    · exact show ("group" : String).data ≠ ("attribution" : String).data by decide
    · exact show ("top_keys" : String).data ≠ ("attribution" : String).data by decide
    · obtain ⟨hk, s, hv, hs⟩ := optParam_mem hp
      rw [hk]; decide
    · obtain ⟨hk, s, hv, hs⟩ := optParam_mem hp
      rw [hk]; decide
    · rcases pd with _ | ds
      · simp at hp
      · rcases hds : ds.isEmpty with _ | _
        · have hp' : p = ("dimensions", joinComma ds) := by simpa [hds] using hp
          subst hp'
          exact show ("dimensions" : String).data ≠ ("attribution" : String).data by decide
        · simp [hds] at hp
    · rcases timezone with _ | tz
      · simp at hp
      · rcases htz : tz.isEmpty with _ | _
        · have hp' : p = ("timezone", encodeURIComponent tz) := by simpa [htz] using hp
          subst hp'
          exact show ("timezone" : String).data ≠ ("attribution" : String).data by decide
        · simp [htz] at hp

/-- Witness for C5 at a concrete call with attribution `"last"` and one
dimension: the built URL's parameter keys do not include `attribution`. -/
theorem getDataByTime_no_attribution_param_witness :
    "attribution".data ∉ urlParamKeys
      "https://api-metrika.yandex.net/stat/v1/data/bytime?ids=1&metrics=ym:s:visits&group=day&top_keys=7&dimensions=ym:s:lastUTMCampaign" :=
  getDataByTime_no_attribution_param "1" (some ["ym:s:visits"]) none none
    (some ["ym:s:UTMCampaign"]) "day" 7 none (some "last")
    (by decide)
    (by intro ms hms m hm
        rw [Option.mem_def] at hms
        injection hms with h2
        subst h2
        have hall : ∀ x ∈ (["ym:s:visits"] : List String), '&' ∉ x.data := by decide
        exact hall m hm)
    (by decide)
    (by intro s hs; simp at hs)
    (by intro s hs; simp at hs)
    (by intro ds hds dm hdm
        rw [Option.mem_def] at hds
        injection hds with h2
        subst h2
        have hall : ∀ x ∈ (["ym:s:UTMCampaign"] : List String), '&' ∉ x.data := by decide
        exact hall dm hdm)
    _ (by decide)

/-! ## C7 -/

/-- C7, counterexample: the filters value of the URL built by
`getTrafficSourcesTypes` is the raw filter expression, which differs from its
percent-encoding (`:` and `=` are unescaped), so this operation does not
percent-encode its filter expression. -/
theorem trafficSources_filter_not_encoded :
    (getTrafficSourcesTypes "1").map (fun u => queryParamValue u "filters") =
      .ok (some trafficSourcesFilter.data) ∧
    trafficSourcesFilter.data ≠ (encodeURIComponent trafficSourcesFilter).data :=
  ⟨by decide, by decide⟩

/-- C7 (amended): of the six filter-building operations, three
(`getSearchEnginesData`, `getRegionalData`, `getPageDepthAnalysis`) pass the
entire filter expression through `encodeURIComponent`, so the built URL's
single `filters` parameter value is exactly the percent-encoding of the whole
expression; the other three (`getTrafficSourcesTypes`,
`getOrganicSearchPerformance`, `getContentAnalyticsArticles`) interpolate the
filter expression verbatim, so their `filters` value is the raw, unencoded
expression. -/
theorem filters_parameter_encoding (c : String) (hC : '&' ∉ c.data)
    (er nu : Bool) (cities : List String) (minPages : Int) (d1 d2 : Option String)
    (hD1 : ∀ s ∈ d1, '&' ∉ s.data) (hD2 : ∀ s ∈ d2, '&' ∉ s.data) :
    (∀ u, getSearchEnginesData c er nu = .ok u →
      queryParamValue u "filters" =
        some (encodeURIComponent (searchEnginesFilter er nu)).data) ∧
    (∀ u, getRegionalData c cities = .ok u →
      queryParamValue u "filters" =
        some (encodeURIComponent (regionalFilter cities)).data) ∧
    (∀ u, getPageDepthAnalysis c minPages = .ok u →
      queryParamValue u "filters" =
        some (encodeURIComponent (pageDepthFilter minPages)).data) ∧
    (∀ u, getTrafficSourcesTypes c = .ok u →
      queryParamValue u "filters" = some trafficSourcesFilter.data) ∧
    (∀ u, getOrganicSearchPerformance c d1 d2 = .ok u →
      queryParamValue u "filters" = some organicFilter.data) ∧
    (∀ u, getContentAnalyticsArticles c d1 d2 = .ok u →
      queryParamValue u "filters" = some articlesFilter.data) := by
  refine ⟨?_, ?_, ?_, ?_, ?_, ?_⟩
  · intro u h
    unfold getSearchEnginesData at h
    split at h
    · exact Except.noConfusion h
    injection h with hu
    subst hu
    exact queryParamValue_mkUrl reportsBase "filters"
      (encodeURIComponent (searchEnginesFilter er nu))
      ("dimensions", "ym:s:searchEngine")
      [("metrics", "ym:s:visits,ym:s:users")] [("id", c)]
      (by decide) (by decide)
      (show '=' ∉ ("dimensions" : String).data by decide)
      (by
        intro p hp
        simp only [List.mem_cons, List.mem_append, List.cons_append,
          List.nil_append, List.not_mem_nil, or_false] at hp
        rcases hp with rfl | rfl | rfl | rfl
        · exact ⟨show '&' ∉ ("dimensions" : String).data by decide,
            show '&' ∉ ("ym:s:searchEngine" : String).data by decide⟩
        · exact ⟨show '&' ∉ ("metrics" : String).data by decide,
            show '&' ∉ ("ym:s:visits,ym:s:users" : String).data by decide⟩
        · exact ⟨show '&' ∉ ("filters" : String).data by decide,
            encodeURIComponent_noAmp _⟩
        · exact ⟨show '&' ∉ ("id" : String).data by decide, hC⟩)
      (by decide)
      (show reportsBase.data ++ ('?' :: ("dimensions" : String).data) ≠
        ("filters" : String).data by decide)
      (by
        intro p hp
        simp only [List.mem_singleton] at hp
        subst hp
        exact ⟨show '=' ∉ ("metrics" : String).data by decide, by decide⟩)
  · intro u h
    unfold getRegionalData at h
    split at h
    · exact Except.noConfusion h
    injection h with hu
    subst hu
    exact queryParamValue_mkUrl reportsBase "filters"
      (encodeURIComponent (regionalFilter cities))
      ("metrics", "ym:s:visits,ym:s:users")
      [] [("id", c), ("lang", "ru")]
      (by decide) (by decide)
      (show '=' ∉ ("metrics" : String).data by decide)
      (by
        intro p hp
        simp only [List.mem_cons, List.mem_append, List.cons_append,
          List.nil_append, List.not_mem_nil, or_false] at hp
        rcases hp with rfl | rfl | rfl | rfl
        · exact ⟨show '&' ∉ ("metrics" : String).data by decide,
            show '&' ∉ ("ym:s:visits,ym:s:users" : String).data by decide⟩
        · exact ⟨show '&' ∉ ("filters" : String).data by decide,
            encodeURIComponent_noAmp _⟩
        · exact ⟨show '&' ∉ ("id" : String).data by decide, hC⟩
        · exact ⟨show '&' ∉ ("lang" : String).data by decide,
            show '&' ∉ ("ru" : String).data by decide⟩)
      (by decide)
      (show reportsBase.data ++ ('?' :: ("metrics" : String).data) ≠
        ("filters" : String).data by decide)
      (by intro p hp; simp at hp)
  · intro u h
    unfold getPageDepthAnalysis at h
    split at h
    · exact Except.noConfusion h
    injection h with hu
    subst hu
    exact queryParamValue_mkUrl reportsBase "filters"
      (encodeURIComponent (pageDepthFilter minPages))
      ("metrics", "ym:s:visits") [] [("id", c)]
      (by decide) (by decide)
      (show '=' ∉ ("metrics" : String).data by decide)
      (by
        intro p hp
        simp only [List.mem_cons, List.mem_append, List.cons_append,
          List.nil_append, List.not_mem_nil, or_false] at hp
        rcases hp with rfl | rfl | rfl
        · exact ⟨show '&' ∉ ("metrics" : String).data by decide,
            show '&' ∉ ("ym:s:visits" : String).data by decide⟩
        · exact ⟨show '&' ∉ ("filters" : String).data by decide,
            encodeURIComponent_noAmp _⟩
        · exact ⟨show '&' ∉ ("id" : String).data by decide, hC⟩)
      (by decide)
      (show reportsBase.data ++ ('?' :: ("metrics" : String).data) ≠
        ("filters" : String).data by decide)
      (by intro p hp; simp at hp)
  · intro u h
    unfold getTrafficSourcesTypes at h
    split at h
    · exact Except.noConfusion h
    injection h with hu
    subst hu
    exact queryParamValue_mkUrl reportsBase "filters" trafficSourcesFilter
      ("dimensions", "ym:s:lastTrafficSource")
      [("metrics", "ym:s:visits,ym:s:users")] [("id", c), ("lang", "ru")]
      (by decide) (by decide)
      (show '=' ∉ ("dimensions" : String).data by decide)
      (by
        intro p hp
        simp only [List.mem_cons, List.mem_append, List.cons_append,
          List.nil_append, List.not_mem_nil, or_false] at hp
        rcases hp with rfl | rfl | rfl | rfl | rfl
        · exact ⟨show '&' ∉ ("dimensions" : String).data by decide,
            show '&' ∉ ("ym:s:lastTrafficSource" : String).data by decide⟩
        · exact ⟨show '&' ∉ ("metrics" : String).data by decide,
            show '&' ∉ ("ym:s:visits,ym:s:users" : String).data by decide⟩
        · exact ⟨show '&' ∉ ("filters" : String).data by decide,
            show '&' ∉ trafficSourcesFilter.data by decide⟩
        · exact ⟨show '&' ∉ ("id" : String).data by decide, hC⟩
        · exact ⟨show '&' ∉ ("lang" : String).data by decide,
            show '&' ∉ ("ru" : String).data by decide⟩)
      (by decide)
      (show reportsBase.data ++ ('?' :: ("dimensions" : String).data) ≠
        ("filters" : String).data by decide)
      (by
        intro p hp
        simp only [List.mem_singleton] at hp
        subst hp
        exact ⟨show '=' ∉ ("metrics" : String).data by decide, by decide⟩)
  · intro u h
    unfold getOrganicSearchPerformance at h
    split at h
    · exact Except.noConfusion h
    injection h with hu
    subst hu
    exact queryParamValue_mkUrl reportsBase "filters" organicFilter
      ("dimensions", "ym:s:searchEngine,ym:s:searchPhrase")
      [("metrics", "ym:s:visits,ym:s:users,ym:s:pageviews")]
      (("id", c) :: (optParam "date1" d1 ++ optParam "date2" d2))
      (by decide) (by decide)
      (show '=' ∉ ("dimensions" : String).data by decide)
      (by
        intro p hp
        simp only [List.mem_cons, List.mem_append, List.cons_append,
          List.nil_append, List.not_mem_nil, or_false] at hp
        rcases hp with rfl | rfl | rfl | rfl | hp | hp
        · exact ⟨show '&' ∉ ("dimensions" : String).data by decide,
            show '&' ∉ ("ym:s:searchEngine,ym:s:searchPhrase" : String).data by decide⟩
        · exact ⟨show '&' ∉ ("metrics" : String).data by decide,
            show '&' ∉ ("ym:s:visits,ym:s:users,ym:s:pageviews" : String).data by decide⟩
        · exact ⟨show '&' ∉ ("filters" : String).data by decide,
            show '&' ∉ organicFilter.data by decide⟩
        · exact ⟨show '&' ∉ ("id" : String).data by decide, hC⟩
        · obtain ⟨hk, s1, hv, hs⟩ := optParam_mem hp
          exact ⟨by rw [hk]; decide, by rw [hs]; exact hD1 s1 (by rw [hv]; rfl)⟩
        · obtain ⟨hk, s1, hv, hs⟩ := optParam_mem hp
          exact ⟨by rw [hk]; decide, by rw [hs]; exact hD2 s1 (by rw [hv]; rfl)⟩)
      (by decide)
      (show reportsBase.data ++ ('?' :: ("dimensions" : String).data) ≠
        ("filters" : String).data by decide)
      (by
        intro p hp
        simp only [List.mem_singleton] at hp
        subst hp
        exact ⟨show '=' ∉ ("metrics" : String).data by decide, by decide⟩)
  · intro u h
    unfold getContentAnalyticsArticles at h
    split at h
    · exact Except.noConfusion h
    injection h with hu
    subst hu
    exact queryParamValue_mkUrl reportsBase "filters" articlesFilter
      ("ids", c)
      [("dimensions", "ym:s:publisherArticle"), ("metrics", "ym:s:publisherviews")]
      (("sort", "-ym:s:publisherviews") :: (optParam "date1" d1 ++ optParam "date2" d2))
      (by decide) (by decide)
      (show '=' ∉ ("ids" : String).data by decide)
      (by
        intro p hp
        simp only [List.mem_cons, List.mem_append, List.cons_append,
          List.nil_append, List.not_mem_nil, or_false] at hp
        rcases hp with rfl | rfl | rfl | rfl | rfl | hp | hp
        · exact ⟨show '&' ∉ ("ids" : String).data by decide, hC⟩
        · exact ⟨show '&' ∉ ("dimensions" : String).data by decide,
            show '&' ∉ ("ym:s:publisherArticle" : String).data by decide⟩
        · exact ⟨show '&' ∉ ("metrics" : String).data by decide,
            show '&' ∉ ("ym:s:publisherviews" : String).data by decide⟩
        · exact ⟨show '&' ∉ ("filters" : String).data by decide,
            show '&' ∉ articlesFilter.data by decide⟩
        · exact ⟨show '&' ∉ ("sort" : String).data by decide,
            show '&' ∉ ("-ym:s:publisherviews" : String).data by decide⟩
        · obtain ⟨hk, s1, hv, hs⟩ := optParam_mem hp
          exact ⟨by rw [hk]; decide, by rw [hs]; exact hD1 s1 (by rw [hv]; rfl)⟩
        · obtain ⟨hk, s1, hv, hs⟩ := optParam_mem hp
          exact ⟨by rw [hk]; decide, by rw [hs]; exact hD2 s1 (by rw [hv]; rfl)⟩)
      (by decide)
      (show reportsBase.data ++ ('?' :: ("ids" : String).data) ≠
        ("filters" : String).data by decide)
      (by
        intro p hp
        simp only [List.mem_cons, List.mem_singleton, List.not_mem_nil,
          or_false] at hp
        rcases hp with rfl | rfl
        · exact ⟨show '=' ∉ ("dimensions" : String).data by decide, by decide⟩
        · exact ⟨show '=' ∉ ("metrics" : String).data by decide, by decide⟩)

/-- Witness for C7 at `getPageDepthAnalysis "1" 5`: the filters value of the
built URL is the percent-encoding of `ym:s:pageViews>5`. -/
theorem filters_parameter_encoding_witness :
    queryParamValue
      "https://api-metrika.yandex.net/stat/v1/data?metrics=ym:s:visits&filters=ym%3As%3ApageViews%3E5&id=1"
      "filters" = some (encodeURIComponent (pageDepthFilter 5)).data :=
  (filters_parameter_encoding "1" (by decide) false false [] 5 none none
    (by intro s hs; simp at hs) (by intro s hs; simp at hs)).2.2.1 _ (by decide)

end YandexMetrika

